import Mathlib

/-!
Shallow embedding of the core logic of the Ethiopia financial-inclusion
dashboard (src/dashboard/app.py).

Modelling choices:
* A dataset row carries the columns the queries read: `indicator` (NaN
  modelled as `none`, per `na=False` in `str.contains`), `observation_date`
  (`pd.to_datetime(..., errors="coerce")` turns unparseable dates into NaT,
  modelled as `none`), `value_numeric` (NaN as `none`, numbers as `Rat`),
  and `record_type` (a string; the page works on the `"observation"` slice).
* A date is (year, day-of-year), ordered lexicographically; `.dt.year` /
  `Timestamp.year` is the `year` field, and NaT's `.year` is missing.
* `sort_values("observation_date")` sorts ascending with NaT placed last
  (pandas default `na_position="last"`), embedded as a merge sort under
  `odateLe`, where `none` (NaT) is greater than every actual date.
* `merged["value_numeric_p2p"] / merged["value_numeric_atm"]` is numpy
  float division: NaN operands give NaN, and a zero denominator gives
  inf/NaN without raising.  Non-finite results (NaN, ±inf) are modelled as
  `none`; finite values as `some` of the rational quotient.
* The forecast file is `none` when `forecast_file.exists()` is false; the
  page functions return `Except` so that an attempted read of a missing
  file would be a visible `.error`.
-/

namespace EthiopiaDashboard

/-- Calendar date: year plus day-of-year, ordered lexicographically.  This
is the order `pd.to_datetime` timestamps carry, and `.year` is the year
component. -/
structure Date where
  year : Int
  doy : Nat
deriving DecidableEq, Repr

/-- Ascending order on dates (lexicographic on year, then day-of-year). -/
def Date.le (a b : Date) : Bool :=
  decide (a.year < b.year) || (a.year == b.year && decide (a.doy ≤ b.doy))

/-- Order on optional dates used by `sort_values("observation_date")`:
NaT (`none`) is placed after every real date (`na_position="last"`). -/
def odateLe : Option Date → Option Date → Bool
  | _, none => true
  | none, some _ => false
  | some a, some b => Date.le a b

/-- One row of the unified dataset, restricted to the columns the queries
read.  `indicator` is `none` for a NaN indicator cell, `observation_date`
is `none` for NaT (unparseable date coerced by `errors="coerce"`), and
`value_numeric` is `none` for a missing numeric value. -/
structure Row where
  indicator : Option String
  observation_date : Option Date
  value_numeric : Option Rat
  record_type : String
deriving DecidableEq, Repr

/-- Does the character list `pat` occur at the head of `l`? -/
def listStarts : List Char → List Char → Bool
  | [], _ => true
  | _ :: _, [] => false
  | p :: ps, c :: cs => p == c && listStarts ps cs

/-- Does `pat` occur as a contiguous run inside `hay`? -/
def listContains : List Char → List Char → Bool
  | [], pat => pat.isEmpty
  | c :: rest, pat => listStarts pat (c :: rest) || listContains rest pat

/-- Case-insensitive substring test: `Series.str.contains(kw, case=False)`
for plain (regex-metacharacter-free) keywords. -/
def containsCI (hay kw : String) : Bool :=
  listContains (hay.toList.map Char.toLower) (kw.toList.map Char.toLower)

/-- `obs["indicator"].str.contains(keyword, case=False, na=False)` for one
row: a NaN indicator never matches (`na=False`). -/
def indicatorMatches (r : Row) (kw : String) : Bool :=
  match r.indicator with
  | none => false
  | some s => containsCI s kw

/-- `obs = df[df["record_type"] == "observation"]`. -/
def obsRows (df : List Row) : List Row :=
  df.filter (fun r => r.record_type == "observation")

/-- `obs["year"] = obs["observation_date"].dt.year`; NaT yields a missing
year. -/
def yearOf (r : Row) : Option Int :=
  r.observation_date.map Date.year

/-- The subset both helpers build: indicator contains the keyword
(case-insensitive) and `value_numeric` is present. -/
def matchedRows (df : List Row) (kw : String) : List Row :=
  (obsRows df).filter (fun r => indicatorMatches r kw && r.value_numeric.isSome)

/-- Row comparison used by `sort_values("observation_date")`. -/
def rowDateLe (a b : Row) : Bool :=
  odateLe a.observation_date b.observation_date

/-- Insert a row into an already date-sorted list, before the first row it
compares `≤` to (so an inserted row lands before rows with an equal date
that originally came after it). -/
def insertByDate (r : Row) : List Row → List Row
  | [] => [r]
  | x :: xs => if rowDateLe r x then r :: x :: xs else x :: insertByDate r xs

/-- `subset.sort_values("observation_date")`: ascending by date, NaT rows
last. -/
def sortByDate : List Row → List Row
  | [] => []
  | r :: rest => insertByDate r (sortByDate rest)

/-- Reading `row["value_numeric"]` from a row of `matchedRows`, where the
filter guarantees the value is present (the default is never reached). -/
def val (r : Row) : Rat :=
  r.value_numeric.getD 0

/-- `latest_value(keyword)`: filter, return `None` on an empty subset,
else sort by date and return the value and year of the final row. -/
def latest_value (df : List Row) (kw : String) : Option (Rat × Option Int) :=
  let subset := matchedRows df kw
  match (sortByDate subset).getLast? with
  | none => none
  | some row => some (val row, yearOf row)

/-- `growth_rate(keyword)`: filter, sort by date, return `None` when fewer
than two rows remain, else the last value minus the second-to-last. -/
def growth_rate (df : List Row) (kw : String) : Option Rat :=
  let subset := sortByDate (matchedRows df kw)
  if subset.length < 2 then none
  else
    match subset.reverse with
    | r1 :: r2 :: _ => some (val r1 - val r2)
    | _ => none

/-- `p2p = obs[obs["indicator"].str.contains("p2p", case=False, na=False)]`
(no `value_numeric` filter). -/
def p2pRows (df : List Row) : List Row :=
  (obsRows df).filter (fun r => indicatorMatches r "p2p")

/-- `atm = obs[obs["indicator"].str.contains("atm", case=False, na=False)]`. -/
def atmRows (df : List Row) : List Row :=
  (obsRows df).filter (fun r => indicatorMatches r "atm")

/-- One row of `pd.merge(p2p[["year","value_numeric"]],
atm[["year","value_numeric"]], on="year", suffixes=("_p2p","_atm"))`. -/
structure Merged where
  year : Option Int
  value_numeric_p2p : Option Rat
  value_numeric_atm : Option Rat
deriving DecidableEq, Repr

/-- Inner merge on `year`: one output row per (left row, right row) pair
with equal keys, left rows outermost (pandas inner-join ordering); missing
years (NaN keys) match each other, as pandas merge keys do. -/
def pdMergeYear (ps atms : List Row) : List Merged :=
  ps.flatMap (fun p =>
    atms.filterMap (fun a =>
      if yearOf p == yearOf a then
        some { year := yearOf p, value_numeric_p2p := p.value_numeric,
               value_numeric_atm := a.value_numeric }
      else none))

/-- Elementwise float division for the `ratio` column: a NaN operand gives
NaN and a zero denominator gives inf/NaN; all non-finite outcomes are the
`none` marker, and no case raises. -/
def ratioDiv : Option Rat → Option Rat → Option Rat
  | some p, some a => if a = 0 then none else some (p / a)
  | _, _ => none

/-- A merged row after `merged["ratio"] = ... / ...` is assigned. -/
structure MergedR where
  year : Option Int
  value_numeric_p2p : Option Rat
  value_numeric_atm : Option Rat
  ratio : Option Rat
deriving DecidableEq, Repr

/-- Append the `ratio` column to the merge result. -/
def withRatio (m : List Merged) : List MergedR :=
  m.map (fun r =>
    { year := r.year, value_numeric_p2p := r.value_numeric_p2p,
      value_numeric_atm := r.value_numeric_atm,
      ratio := ratioDiv r.value_numeric_p2p r.value_numeric_atm })

/-- What the P2P/ATM crossover section renders: either the ratio chart or
the "P2P or ATM indicators not available" info message. -/
inductive CrossoverView where
  | notAvailable
  | chart (rows : List MergedR)
deriving DecidableEq, Repr

/-- The Overview page's crossover section: `if not p2p.empty and not
atm.empty:` merge, compute the ratio column and chart it, `else` show the
info message. -/
def crossoverSection (df : List Row) : CrossoverView :=
  let p2p := p2pRows df
  let atm := atmRows df
  if !p2p.isEmpty && !atm.isEmpty then
    CrossoverView.chart (withRatio (pdMergeYear p2p atm))
  else
    CrossoverView.notAvailable

/-- One row of `forecasts.csv`. -/
structure ForecastRecord where
  indicator : String
  year : Int
  value : Rat
  scenario : String
deriving DecidableEq, Repr

/-- The closed option list of the scenario radio / selectbox widgets. -/
def scenarioOptions : List String :=
  ["base", "optimistic", "pessimistic"]

/-- What the Forecasts page renders: the "Forecast file not found" warning
or the filtered chart. -/
inductive ForecastView where
  | warningFileNotFound
  | chart (rows : List ForecastRecord)
deriving DecidableEq, Repr

/-- `pd.read_csv(forecast_file)`: reading a file that does not exist
raises, modelled as an `Except.error`. -/
def readCsv : Option (List ForecastRecord) → Except String (List ForecastRecord)
  | none => Except.error "FileNotFoundError"
  | some rows => Except.ok rows

/-- The Forecasts page: `if not forecast_file.exists(): st.warning(...)`
else read the csv and chart `fc[fc["scenario"] == scenario]`.  `file` is
`none` exactly when `forecast_file.exists()` is false. -/
def forecastsPage (file : Option (List ForecastRecord)) (scenario : String) :
    Except String ForecastView :=
  if !file.isSome then Except.ok ForecastView.warningFileNotFound
  else do
    let fc ← readCsv file
    Except.ok (ForecastView.chart (fc.filter (fun r => r.scenario == scenario)))

/-- The Inclusion Projections page: `if forecast_file.exists():` read and
chart the account+scenario filter; otherwise render no chart (`none`). -/
def inclusionPage (file : Option (List ForecastRecord)) (scenario : String) :
    Except String (Option (List ForecastRecord)) :=
  if file.isSome then do
    let fc ← readCsv file
    Except.ok (some (fc.filter (fun r =>
      containsCI r.indicator "account" && r.scenario == scenario)))
  else Except.ok none

/-- Sample observation: "Account X" in 2018 with value 40.0 (from the
spec's worked example). -/
def acct2018 : Row :=
  { indicator := some "Account Ownership (%)",
    observation_date := some { year := 2018, doy := 100 },
    value_numeric := some 40, record_type := "observation" }

/-- Sample observation: "Account X" in 2021 with value 46.0. -/
def acct2021 : Row :=
  { indicator := some "Account Ownership (%)",
    observation_date := some { year := 2021, doy := 100 },
    value_numeric := some 46, record_type := "observation" }

/-- Sample dataset for the account-keyword queries. -/
def sampleDf : List Row :=
  [acct2018, acct2021]

/-- The row ordering as a proposition. -/
def RD (a b : Row) : Prop :=
  rowDateLe a b = true

lemma odateLe_refl (d : Option Date) : odateLe d d = true := by
  cases d <;> simp [odateLe, Date.le]

lemma odateLe_total (a b : Option Date) :
    odateLe a b = true ∨ odateLe b a = true := by
  cases a with
  | none => cases b with
    | none => left; rfl
    | some d => right; rfl
  | some x => cases b with
    | none => left; rfl
    | some y =>
      simp only [odateLe, Date.le, Bool.or_eq_true, Bool.and_eq_true,
        decide_eq_true_eq, beq_iff_eq]
      omega

lemma odateLe_trans {a b c : Option Date} (hab : odateLe a b = true)
    (hbc : odateLe b c = true) : odateLe a c = true := by
  cases a with
  | none =>
    cases b with
    | none => exact hbc
    | some y => cases hab
  | some x =>
    cases c with
    | none => rfl
    | some z =>
      cases b with
      | none => cases hbc
      | some y =>
        simp only [odateLe, Date.le, Bool.or_eq_true, Bool.and_eq_true,
          decide_eq_true_eq, beq_iff_eq] at *
        omega

lemma rowDateLe_refl (r : Row) : rowDateLe r r = true :=
  odateLe_refl _

lemma rowDateLe_total (a b : Row) :
    rowDateLe a b = true ∨ rowDateLe b a = true :=
  odateLe_total _ _

lemma rowDateLe_trans {a b c : Row} (hab : rowDateLe a b = true)
    (hbc : rowDateLe b c = true) : rowDateLe a c = true :=
  odateLe_trans hab hbc

lemma insertByDate_perm (r : Row) (l : List Row) :
    (insertByDate r l).Perm (r :: l) := by
  induction l with
  | nil => exact List.Perm.refl _
  | cons x xs ih =>
    by_cases h : rowDateLe r x = true
    · simp [insertByDate, h]
    · simp only [insertByDate, h, if_neg]
      simp only [Bool.not_eq_true] at h
      simp only [h, Bool.false_eq_true, if_false]
      exact (ih.cons x).trans (List.Perm.swap r x xs)

lemma mem_insertByDate {y r : Row} {l : List Row} :
    y ∈ insertByDate r l ↔ y = r ∨ y ∈ l := by
  rw [(insertByDate_perm r l).mem_iff, List.mem_cons]

lemma sortByDate_perm (l : List Row) : (sortByDate l).Perm l := by
  induction l with
  | nil => exact List.Perm.refl _
  | cons r rest ih =>
    exact (insertByDate_perm r (sortByDate rest)).trans (ih.cons r)

lemma insertByDate_pairwise {r : Row} {l : List Row}
    (h : l.Pairwise RD) : (insertByDate r l).Pairwise RD := by
  induction l with
  | nil => simp [insertByDate, RD]
  | cons x xs ih =>
    rcases List.pairwise_cons.mp h with ⟨hx, hxs⟩
    by_cases hrx : rowDateLe r x = true
    · simp only [insertByDate]
      rw [if_pos hrx]
      refine List.pairwise_cons.mpr ⟨?_, h⟩
      intro b hb
      rcases List.mem_cons.mp hb with hb | hb
      · exact hb ▸ hrx
      · exact rowDateLe_trans hrx (hx b hb)
    · have hxr : rowDateLe x r = true := (rowDateLe_total r x).resolve_left hrx
      simp only [insertByDate]
      rw [if_neg hrx]
      refine List.pairwise_cons.mpr ⟨?_, ih hxs⟩
      intro b hb
      rcases mem_insertByDate.mp hb with hb | hb
      · exact hb ▸ hxr
      · exact hx b hb

lemma sortByDate_pairwise (l : List Row) : (sortByDate l).Pairwise RD := by
  induction l with
  | nil => exact List.Pairwise.nil
  | cons r rest ih => exact insertByDate_pairwise ih

lemma sortByDate_eq_nil {l : List Row} (h : l = []) : sortByDate l = [] := by
  subst h; rfl

lemma mem_of_getLast?_eq {l : List Row} {r : Row}
    (h : l.getLast? = some r) : r ∈ l := by
  induction l with
  | nil => cases h
  | cons a t ih =>
    cases t with
    | nil =>
      simp only [List.getLast?_singleton, Option.some.injEq] at h
      exact h ▸ List.mem_singleton_self a
    | cons b t' =>
      rw [List.getLast?_cons_cons] at h
      exact List.mem_cons_of_mem a (ih h)

lemma pairwise_getLast_max {l : List Row} (h : l.Pairwise RD) {r : Row}
    (hr : l.getLast? = some r) : ∀ x ∈ l, rowDateLe x r = true := by
  induction l with
  | nil => cases hr
  | cons a t ih =>
    cases t with
    | nil =>
      simp only [List.getLast?_singleton, Option.some.injEq] at hr
      intro x hx
      rw [List.mem_singleton.mp hx, ← hr]
      exact rowDateLe_refl a
    | cons b t' =>
      rw [List.getLast?_cons_cons] at hr
      rcases List.pairwise_cons.mp h with ⟨ha, ht⟩
      intro x hx
      rcases List.mem_cons.mp hx with hx | hx
      · exact hx ▸ ha r (mem_of_getLast?_eq hr)
      · exact ih ht hr x hx

/-- Membership in the filtered subset that `latest_value` / `growth_rate`
build. -/
lemma mem_matchedRows {df : List Row} {kw : String} {r : Row} :
    r ∈ matchedRows df kw ↔
      r ∈ df ∧ r.record_type = "observation" ∧ indicatorMatches r kw = true ∧
        r.value_numeric.isSome = true := by
  simp only [matchedRows, obsRows, List.mem_filter, Bool.and_eq_true,
    beq_iff_eq]
  tauto

/-- When the subset is nonempty, `latest_value` returns the value and year
of a matching row whose date is maximal. -/
lemma latest_value_max (df : List Row) (kw : String)
    (h : matchedRows df kw ≠ []) :
    ∃ row ∈ matchedRows df kw,
      latest_value df kw = some (val row, yearOf row) ∧
      ∀ x ∈ matchedRows df kw, rowDateLe x row = true := by
  have hperm := sortByDate_perm (matchedRows df kw)
  have hs : sortByDate (matchedRows df kw) ≠ [] := by
    intro hnil
    exact h ((hnil ▸ hperm).symm.eq_nil)
  rcases Option.isSome_iff_exists.mp (List.getLast?_isSome.mpr hs)
    with ⟨row, hrow⟩
  refine ⟨row, ?_, ?_, ?_⟩
  · exact hperm.mem_iff.mp (mem_of_getLast?_eq hrow)
  · simp only [latest_value, hrow]
  · intro x hx
    exact pairwise_getLast_max (sortByDate_pairwise _) hrow x
      (hperm.mem_iff.mpr hx)

lemma latest_value_empty (df : List Row) (kw : String)
    (h : matchedRows df kw = []) : latest_value df kw = none := by
  simp only [latest_value, sortByDate_eq_nil h, List.getLast?_nil]

lemma reverse_two {l : List Row} (h : 2 ≤ l.length) :
    ∃ r1 r2 rest, l.reverse = r1 :: r2 :: rest := by
  cases hrev : l.reverse with
  | nil =>
    rw [← List.length_reverse, hrev] at h
    simp at h
  | cons a t =>
    cases t with
    | nil =>
      rw [← List.length_reverse, hrev] at h
      simp at h
    | cons b t' => exact ⟨a, b, t', rfl⟩

lemma growth_rate_eq_of_reverse {df : List Row} {kw : String}
    {r1 r2 : Row} {rest : List Row}
    (heq : (sortByDate (matchedRows df kw)).reverse = r1 :: r2 :: rest) :
    growth_rate df kw = some (val r1 - val r2) := by
  have hlen : 2 ≤ (sortByDate (matchedRows df kw)).length := by
    have hc := congrArg List.length heq
    rw [List.length_reverse] at hc
    simp only [List.length_cons] at hc
    omega
  show (if (sortByDate (matchedRows df kw)).length < 2 then none
    else match (sortByDate (matchedRows df kw)).reverse with
      | r1 :: r2 :: _ => some (val r1 - val r2)
      | _ => none) = some (val r1 - val r2)
  rw [if_neg (by omega), heq]

lemma growth_rate_none_iff (df : List Row) (kw : String) :
    growth_rate df kw = none ↔ (matchedRows df kw).length < 2 := by
  have hlen : (sortByDate (matchedRows df kw)).length
      = (matchedRows df kw).length :=
    (sortByDate_perm _).length_eq
  constructor
  · intro hn
    by_contra hge
    rcases reverse_two (l := sortByDate (matchedRows df kw)) (by omega)
      with ⟨r1, r2, rest, heq⟩
    rw [growth_rate_eq_of_reverse heq] at hn
    cases hn
  · intro hlt
    show (if (sortByDate (matchedRows df kw)).length < 2 then none
      else match (sortByDate (matchedRows df kw)).reverse with
        | r1 :: r2 :: _ => some (val r1 - val r2)
        | _ => none) = none
    rw [if_pos (by omega)]

/-- C1: `latest_value` considers exactly the observation rows whose
indicator contains the keyword case-insensitively with a present numeric
value; it returns `none` when no row matches, and otherwise the
`value_numeric` and year of a matching row whose observation date is
greatest in the ascending sort order (the chronologically last row). -/
theorem latest_value_spec (df : List Row) (kw : String) :
    (∀ r, r ∈ matchedRows df kw ↔
        r ∈ df ∧ r.record_type = "observation" ∧ indicatorMatches r kw = true ∧
          r.value_numeric.isSome = true) ∧
    (matchedRows df kw = [] → latest_value df kw = none) ∧
    (matchedRows df kw ≠ [] →
      ∃ row ∈ matchedRows df kw,
        latest_value df kw = some (val row, yearOf row) ∧
        ∀ x ∈ matchedRows df kw, rowDateLe x row = true) := by
  refine ⟨fun r => mem_matchedRows, latest_value_empty df kw, ?_⟩
  exact latest_value_max df kw

/-- Witness for C1 at the spec's worked example (accounts at 40.0 in 2018
and 46.0 in 2021). -/
theorem latest_value_spec_witness :
    matchedRows sampleDf "account" ≠ [] ∧
    ∃ row ∈ matchedRows sampleDf "account",
      latest_value sampleDf "account" = some (val row, yearOf row) ∧
      ∀ x ∈ matchedRows sampleDf "account", rowDateLe x row = true :=
  ⟨by decide, (latest_value_spec sampleDf "account").2.2 (by decide)⟩

/-- C2: `growth_rate` returns `none` exactly when fewer than two rows
match the filter, and otherwise the value of the chronologically last
matching row minus the value of the second-to-last one (a raw two-point
delta): the matched rows split as `l ++ [a, b]` with `b` date-maximal
and `a` date-maximal among the rest, and the result is
`val b - val a`. -/
theorem growth_rate_spec (df : List Row) (kw : String) :
    (growth_rate df kw = none ↔ (matchedRows df kw).length < 2) ∧
    (2 ≤ (matchedRows df kw).length →
      ∃ l a b, (l ++ [a, b]).Perm (matchedRows df kw) ∧
        (∀ x ∈ l, rowDateLe x a = true) ∧
        (∀ x ∈ l ++ [a], rowDateLe x b = true) ∧
        growth_rate df kw = some (val b - val a)) := by
  refine ⟨growth_rate_none_iff df kw, fun h2 => ?_⟩
  have hlen : (sortByDate (matchedRows df kw)).length
      = (matchedRows df kw).length :=
    (sortByDate_perm _).length_eq
  rcases reverse_two (l := sortByDate (matchedRows df kw)) (by omega)
    with ⟨r1, r2, rest, heq⟩
  have hs_eq : sortByDate (matchedRows df kw)
      = (rest.reverse ++ [r2]) ++ [r1] := by
    rw [← List.reverse_reverse (sortByDate (matchedRows df kw)), heq]
    simp [List.reverse_cons, List.append_assoc]
  have hpair := sortByDate_pairwise (matchedRows df kw)
  rw [hs_eq] at hpair
  rcases List.pairwise_append.mp hpair with ⟨hp1, _, hp3⟩
  rcases List.pairwise_append.mp hp1 with ⟨_, _, hp13⟩
  refine ⟨rest.reverse, r2, r1, ?_, ?_, ?_, growth_rate_eq_of_reverse heq⟩
  · have hperm := sortByDate_perm (matchedRows df kw)
    rw [hs_eq] at hperm
    rw [show rest.reverse ++ [r2, r1] = (rest.reverse ++ [r2]) ++ [r1] by
      simp [List.append_assoc]]
    exact hperm
  · intro x hx
    exact hp13 x hx r2 (List.mem_singleton_self r2)
  · intro x hx
    exact hp3 x hx r1 (List.mem_singleton_self r1)

/-- Witness for C2 at the spec's worked example: the account keyword has
two matching rows and the delta is 46.0 − 40.0. -/
theorem growth_rate_spec_witness :
    2 ≤ (matchedRows sampleDf "account").length ∧
    ∃ l a b, (l ++ [a, b]).Perm (matchedRows sampleDf "account") ∧
      (∀ x ∈ l, rowDateLe x a = true) ∧
      (∀ x ∈ l ++ [a], rowDateLe x b = true) ∧
      growth_rate sampleDf "account" = some (val b - val a) :=
  ⟨by decide, (growth_rate_spec sampleDf "account").2 (by decide)⟩

lemma mem_withRatio {m : MergedR} {lst : List Merged} :
    m ∈ withRatio lst ↔ ∃ x ∈ lst,
      m = { year := x.year, value_numeric_p2p := x.value_numeric_p2p,
            value_numeric_atm := x.value_numeric_atm,
            ratio := ratioDiv x.value_numeric_p2p x.value_numeric_atm } := by
  simp only [withRatio, List.mem_map]
  constructor
  · rintro ⟨x, hx, rfl⟩
    exact ⟨x, hx, rfl⟩
  · rintro ⟨x, hx, rfl⟩
    exact ⟨x, hx, rfl⟩

lemma mem_pdMergeYear {x : Merged} {ps atms : List Row} :
    x ∈ pdMergeYear ps atms ↔ ∃ p ∈ ps, ∃ a ∈ atms, yearOf p = yearOf a ∧
      x = { year := yearOf p, value_numeric_p2p := p.value_numeric,
            value_numeric_atm := a.value_numeric } := by
  simp only [pdMergeYear, List.mem_flatMap, List.mem_filterMap]
  constructor
  · rintro ⟨p, hp, a, ha, hx⟩
    split at hx
    case isTrue hy =>
      exact ⟨p, hp, a, ha, beq_iff_eq.mp hy, (Option.some_inj.mp hx).symm⟩
    case isFalse hy => cases hx
  · rintro ⟨p, hp, a, ha, hy, rfl⟩
    refine ⟨p, hp, a, ha, ?_⟩
    rw [if_pos (beq_iff_eq.mpr hy)]

lemma crossoverSection_chart {df : List Row} {rows : List MergedR}
    (h : crossoverSection df = CrossoverView.chart rows) :
    p2pRows df ≠ [] ∧ atmRows df ≠ [] ∧
    rows = withRatio (pdMergeYear (p2pRows df) (atmRows df)) := by
  by_cases hcond :
      (!(p2pRows df).isEmpty && !(atmRows df).isEmpty) = true
  · rcases Bool.and_eq_true_iff.mp hcond with ⟨hp, ha⟩
    rw [Bool.not_eq_true'] at hp ha
    have h2 : CrossoverView.chart
        (withRatio (pdMergeYear (p2pRows df) (atmRows df)))
        = CrossoverView.chart rows := by
      rw [← h]
      show CrossoverView.chart _ = (if _ && _ then _ else _)
      rw [if_pos hcond]
    exact ⟨List.isEmpty_eq_false.mp hp, List.isEmpty_eq_false.mp ha,
      (CrossoverView.chart.injEq .. ▸ h2).symm⟩
  · exfalso
    have h2 : CrossoverView.notAvailable = CrossoverView.chart rows := by
      rw [← h]
      show CrossoverView.notAvailable = (if _ && _ then _ else _)
      rw [if_neg hcond]
    cases h2

lemma crossoverSection_empty {df : List Row}
    (h : p2pRows df = [] ∨ atmRows df = []) :
    crossoverSection df = CrossoverView.notAvailable := by
  show (if !(p2pRows df).isEmpty && !(atmRows df).isEmpty then _ else _)
    = CrossoverView.notAvailable
  rcases h with h | h <;> rw [h] <;> simp

/-- C5: the crossover section inner-joins the p2p-matching and
atm-matching rows on year: every chart row's (possibly missing) year comes
from a p2p row and an atm row with that same year and carries the ratio of
their values, every year present in both filtered sets appears, and if
either filtered set is empty the section renders the
"indicators not available" state instead of a chart. -/
theorem crossover_spec (df : List Row) :
    (p2pRows df = [] ∨ atmRows df = [] →
      crossoverSection df = CrossoverView.notAvailable) ∧
    ∀ rows, crossoverSection df = CrossoverView.chart rows →
      (∀ m ∈ rows,
        (∃ p ∈ p2pRows df, yearOf p = m.year ∧
          m.value_numeric_p2p = p.value_numeric) ∧
        (∃ a ∈ atmRows df, yearOf a = m.year ∧
          m.value_numeric_atm = a.value_numeric) ∧
        m.ratio = ratioDiv m.value_numeric_p2p m.value_numeric_atm) ∧
      (∀ y, (∃ p ∈ p2pRows df, yearOf p = y) →
        (∃ a ∈ atmRows df, yearOf a = y) →
        ∃ m ∈ rows, m.year = y) := by
  refine ⟨crossoverSection_empty, fun rows hrows => ⟨?_, ?_⟩⟩
  · intro m hm
    rcases crossoverSection_chart hrows with ⟨_, _, rfl⟩
    rcases mem_withRatio.mp hm with ⟨x, hx, rfl⟩
    rcases mem_pdMergeYear.mp hx with ⟨p, hp, a, ha, hy, rfl⟩
    exact ⟨⟨p, hp, rfl, rfl⟩, ⟨a, ha, hy.symm, rfl⟩, rfl⟩
  · intro y hpy hay
    rcases crossoverSection_chart hrows with ⟨_, _, rfl⟩
    rcases hpy with ⟨p, hp, hpy⟩
    rcases hay with ⟨a, ha, hay⟩
    refine ⟨{ year := yearOf p, value_numeric_p2p := p.value_numeric,
              value_numeric_atm := a.value_numeric,
              ratio := ratioDiv p.value_numeric a.value_numeric }, ?_, hpy⟩
    exact mem_withRatio.mpr
      ⟨{ year := yearOf p, value_numeric_p2p := p.value_numeric,
         value_numeric_atm := a.value_numeric },
       mem_pdMergeYear.mpr ⟨p, hp, a, ha, hpy.trans hay.symm, rfl⟩, rfl⟩

/-- Sample p2p observation for 2019 (value 10). -/
def p2p2019 : Row :=
  { indicator := some "P2P transaction volume",
    observation_date := some { year := 2019, doy := 50 },
    value_numeric := some 10, record_type := "observation" }

/-- Sample atm observation for 2019 (value 5). -/
def atm2019 : Row :=
  { indicator := some "ATM withdrawal volume",
    observation_date := some { year := 2019, doy := 60 },
    value_numeric := some 5, record_type := "observation" }

/-- Sample dataset on which the crossover section renders a chart. -/
def crossDf : List Row :=
  [p2p2019, atm2019]

/-- Witness for C5: on the sample dataset the chart is rendered and the
joined year 2019 appears in it. -/
theorem crossover_spec_witness :
    ∃ m ∈ withRatio (pdMergeYear (p2pRows crossDf) (atmRows crossDf)),
      m.year = some 2019 :=
  ((crossover_spec crossDf).2 _ rfl).2 (some 2019)
    ⟨p2p2019, by decide, by decide⟩ ⟨atm2019, by decide, by decide⟩

/-- C6: on every chart row whose atm value is 0 the ratio column holds the
non-finite marker; `ratioDiv` is a total function, so the division raises
no fault on the joined rows. -/
theorem ratio_zero_spec (df : List Row) (rows : List MergedR) (m : MergedR)
    (hc : crossoverSection df = CrossoverView.chart rows) (hm : m ∈ rows)
    (hz : m.value_numeric_atm = some 0) : m.ratio = none := by
  rcases crossoverSection_chart hc with ⟨_, _, rfl⟩
  rcases mem_withRatio.mp hm with ⟨x, hx, rfl⟩
  simp only at hz
  cases hvp : x.value_numeric_p2p <;> simp [ratioDiv, hz, hvp]

/-- Sample p2p observation for 2020 (value 20). -/
def p2p2020 : Row :=
  { indicator := some "P2P transaction volume",
    observation_date := some { year := 2020, doy := 50 },
    value_numeric := some 20, record_type := "observation" }

/-- Sample atm observation for 2020 with value 0. -/
def atmZero2020 : Row :=
  { indicator := some "ATM withdrawal volume",
    observation_date := some { year := 2020, doy := 60 },
    value_numeric := some 0, record_type := "observation" }

/-- Sample dataset whose only joined year has atm value 0. -/
def crossDfZero : List Row :=
  [p2p2020, atmZero2020]

/-- The chart row produced for 2020 from `crossDfZero`. -/
def mZero : MergedR :=
  { year := some 2020, value_numeric_p2p := some 20,
    value_numeric_atm := some 0, ratio := none }

/-- Witness for C6: the 2020 row joins p2p value 20 with atm value 0 and
its ratio is the non-finite marker. -/
theorem ratio_zero_spec_witness :
    crossoverSection crossDfZero = CrossoverView.chart
      (withRatio (pdMergeYear (p2pRows crossDfZero) (atmRows crossDfZero))) ∧
    mZero ∈ withRatio (pdMergeYear (p2pRows crossDfZero) (atmRows crossDfZero)) ∧
    mZero.value_numeric_atm = some 0 ∧
    mZero.ratio = none :=
  ⟨rfl, by decide, rfl,
    ratio_zero_spec crossDfZero _ mZero rfl (by decide) rfl⟩

lemma countP_filterMap_year (p : Row) (atms : List Row) (y : Option Int) :
    ((atms.filterMap (fun a =>
        if yearOf p == yearOf a then
          some ({ year := yearOf p, value_numeric_p2p := p.value_numeric,
                  value_numeric_atm := a.value_numeric } : Merged)
        else none)).countP (fun m => m.year == y))
      = if yearOf p == y then atms.countP (fun a => yearOf a == y) else 0 := by
  induction atms with
  | nil =>
    simp only [List.filterMap_nil, List.countP_nil]
    split <;> rfl
  | cons a t ih =>
    rw [List.filterMap_cons]
    by_cases hpa : (yearOf p == yearOf a) = true
    · rw [if_pos hpa]
      rw [List.countP_cons, List.countP_cons, ih]
      have hay : yearOf a = yearOf p := (beq_iff_eq.mp hpa).symm
      by_cases hpy : (yearOf p == y) = true
      · have h1 : (yearOf a == y) = true := by
          rw [hay]; exact hpy
        simp only [hpy, h1, if_true]
      · have h1 : (yearOf a == y) = false := by
          rw [hay]; exact Bool.not_eq_true _ ▸ (by simpa using hpy)
        simp only [hpy, h1, Bool.false_eq_true, if_false]
    · rw [if_neg hpa, ih, List.countP_cons]
      by_cases hpy : (yearOf p == y) = true
      · have h1 : (yearOf a == y) = false := by
          rw [beq_eq_false_iff_ne]
          intro hcontra
          exact hpa (beq_iff_eq.mpr ((beq_iff_eq.mp hpy).trans hcontra.symm))
        simp only [hpy, h1, Bool.false_eq_true, if_false, if_true, Nat.add_zero]
      · simp only [hpy, Bool.false_eq_true, if_false]

/-- C9: the inner join on `year` produces one output row per
(p2p row, atm row) pair sharing that year: for every year key, the number
of merged rows carrying it is the product of the numbers of p2p and atm
rows carrying it, so duplicated years on either side yield multiple chart
entries for the same year. -/
theorem merge_year_pairs_spec (ps atms : List Row) (y : Option Int) :
    (pdMergeYear ps atms).countP (fun m => m.year == y)
      = ps.countP (fun p => yearOf p == y)
        * atms.countP (fun a => yearOf a == y) := by
  induction ps with
  | nil => simp [pdMergeYear]
  | cons p pt ih =>
    rw [show pdMergeYear (p :: pt) atms
        = (atms.filterMap (fun a =>
            if yearOf p == yearOf a then
              some ({ year := yearOf p, value_numeric_p2p := p.value_numeric,
                      value_numeric_atm := a.value_numeric } : Merged)
            else none)) ++ pdMergeYear pt atms from
      List.flatMap_cons p pt _]
    rw [List.countP_append, ih, countP_filterMap_year, List.countP_cons]
    by_cases hpy : (yearOf p == y) = true
    · simp only [hpy, if_true]
      ring
    · simp only [hpy, Bool.false_eq_true, if_false, Nat.add_zero, Nat.zero_add]

/-- Sample forecast file contents with only valid scenarios. -/
def sampleFc : List ForecastRecord :=
  [{ indicator := "Account Ownership (%)", year := 2025, value := 55,
     scenario := "base" },
   { indicator := "Account Ownership (%)", year := 2025, value := 58,
     scenario := "optimistic" }]

/-- C3 counterexample: at the concrete scenario string "invalid" (outside
the closed set) the Forecasts page query does not fail with an
Invalid-scenario error; it silently renders the chart of an empty filter
result. -/
theorem scenario_no_invalid_error :
    ¬ "invalid" ∈ scenarioOptions ∧
    forecastsPage (some sampleFc) "invalid"
      = Except.ok (ForecastView.chart []) :=
  ⟨by decide, rfl⟩

/-- C3 (amended): the scenario widgets only offer the closed set
{base, optimistic, pessimistic}; if a scenario string outside that set
were passed to the filter over a file whose records all carry valid
scenarios, the page would silently produce an empty chart, not an
Invalid-scenario failure. -/
theorem scenario_outside_set_spec (fc : List ForecastRecord) (s : String)
    (hfc : ∀ r ∈ fc, r.scenario ∈ scenarioOptions)
    (hs : ¬ s ∈ scenarioOptions) :
    forecastsPage (some fc) s = Except.ok (ForecastView.chart []) := by
  show Except.ok (ForecastView.chart (fc.filter (fun r => r.scenario == s)))
    = Except.ok (ForecastView.chart [])
  rw [List.filter_eq_nil_iff.mpr ?_]
  intro r hr hmatch
  rw [beq_iff_eq] at hmatch
  exact hs (hmatch ▸ hfc r hr)

/-- Witness for C3's amended statement at the scenario string "invalid"
and the sample forecast file. -/
theorem scenario_outside_set_witness :
    (∀ r ∈ sampleFc, r.scenario ∈ scenarioOptions) ∧
    ¬ "invalid" ∈ scenarioOptions ∧
    forecastsPage (some sampleFc) "invalid"
      = Except.ok (ForecastView.chart []) :=
  ⟨by decide, by decide,
    scenario_outside_set_spec sampleFc "invalid" (by decide) (by decide)⟩

/-- C7: when the forecast file is missing, both pages signal their
distinct unavailable state (a warning on the Forecasts page, no chart on
the Inclusion Projections page), never crash, and never read the file:
the read of a missing file would be the error both pages avoid, and the
unavailable states differ from every empty-filter chart. -/
theorem missing_forecast_file_spec :
    (∀ s, forecastsPage none s = Except.ok ForecastView.warningFileNotFound) ∧
    (∀ s, inclusionPage none s = Except.ok none) ∧
    (∀ rows, ForecastView.warningFileNotFound ≠ ForecastView.chart rows) ∧
    (∀ rows : List ForecastRecord,
      (none : Option (List ForecastRecord)) ≠ some rows) ∧
    readCsv none = Except.error "FileNotFoundError" :=
  ⟨fun _ => rfl, fun _ => rfl, fun _ => nofun, fun _ => nofun, rfl⟩

/-- Witness for C7 at the scenario "base": file missing, warning shown on
the Forecasts page and no chart on the Inclusion Projections page. -/
theorem missing_forecast_file_witness :
    forecastsPage none "base" = Except.ok ForecastView.warningFileNotFound ∧
    inclusionPage none "base" = Except.ok none :=
  ⟨missing_forecast_file_spec.1 "base", missing_forecast_file_spec.2.1 "base"⟩

lemma matchedRows_append (l1 l2 : List Row) (kw : String) :
    matchedRows (l1 ++ l2) kw = matchedRows l1 kw ++ matchedRows l2 kw := by
  simp [matchedRows, obsRows, List.filter_append]

lemma matchedRows_cons_of_none {r : Row} (hv : r.value_numeric = none)
    (l : List Row) (kw : String) :
    matchedRows (r :: l) kw = matchedRows l kw := by
  simp only [matchedRows, obsRows, List.filter_cons]
  by_cases hobs : (r.record_type == "observation") = true
  · rw [if_pos hobs, List.filter_cons,
      if_neg (by simp [hv])]
  · rw [if_neg hobs]

/-- C8: a row with an absent `value_numeric` contributes nothing to the
numeric aggregations — deleting it changes neither `latest_value` nor
`growth_rate`, and a merged row built from an absent value carries only
the non-finite ratio marker — yet it still counts for the existence
checks: it is a member of the p2p (resp. atm) filtered set the
availability test inspects whenever its indicator matches. -/
theorem missing_value_row_spec (df1 df2 : List Row) (r : Row) (kw : String)
    (hv : r.value_numeric = none) :
    latest_value (df1 ++ r :: df2) kw = latest_value (df1 ++ df2) kw ∧
    growth_rate (df1 ++ r :: df2) kw = growth_rate (df1 ++ df2) kw ∧
    (r.record_type = "observation" → indicatorMatches r "p2p" = true →
      r ∈ p2pRows (df1 ++ r :: df2)) ∧
    (r.record_type = "observation" → indicatorMatches r "atm" = true →
      r ∈ atmRows (df1 ++ r :: df2)) ∧
    (∀ ps atms : List Row, ∀ m ∈ withRatio (pdMergeYear ps atms),
      m.value_numeric_p2p = none ∨ m.value_numeric_atm = none →
        m.ratio = none) := by
  have hmr : matchedRows (df1 ++ r :: df2) kw = matchedRows (df1 ++ df2) kw := by
    rw [matchedRows_append, matchedRows_cons_of_none hv, ← matchedRows_append]
  refine ⟨?_, ?_, ?_, ?_, ?_⟩
  · simp only [latest_value, hmr]
  · simp only [growth_rate, hmr]
  · intro hobs hmatch
    simp only [p2pRows, obsRows, List.mem_filter]
    exact ⟨⟨List.mem_append_right df1 (List.mem_cons_self r df2),
      beq_iff_eq.mpr hobs⟩, hmatch⟩
  · intro hobs hmatch
    simp only [atmRows, obsRows, List.mem_filter]
    exact ⟨⟨List.mem_append_right df1 (List.mem_cons_self r df2),
      beq_iff_eq.mpr hobs⟩, hmatch⟩
  · intro ps atms m hm habsent
    rcases mem_withRatio.mp hm with ⟨x, _, rfl⟩
    simp only at habsent ⊢
    rcases habsent with h | h <;>
      cases hvp : x.value_numeric_p2p <;>
        cases hva : x.value_numeric_atm <;>
          simp_all [ratioDiv]

/-- A p2p observation whose numeric value is absent. -/
def p2pNoValue : Row :=
  { indicator := some "P2P transaction volume",
    observation_date := some { year := 2022, doy := 10 },
    value_numeric := none, record_type := "observation" }

/-- Witness for C8: inserting the value-less p2p row changes neither
aggregation, yet the row is counted by the p2p availability check. -/
theorem missing_value_row_witness :
    p2pNoValue.value_numeric = none ∧
    latest_value ([] ++ p2pNoValue :: sampleDf) "p2p"
      = latest_value ([] ++ sampleDf) "p2p" ∧
    growth_rate ([] ++ p2pNoValue :: sampleDf) "p2p"
      = growth_rate ([] ++ sampleDf) "p2p" ∧
    p2pNoValue ∈ p2pRows ([] ++ p2pNoValue :: sampleDf) :=
  ⟨rfl,
    (missing_value_row_spec [] sampleDf p2pNoValue "p2p" rfl).1,
    (missing_value_row_spec [] sampleDf p2pNoValue "p2p" rfl).2.1,
    (missing_value_row_spec [] sampleDf p2pNoValue "p2p" rfl).2.2.1 rfl
      (by decide)⟩

/-- C10: a row whose date failed to parse (NaT) but whose value is present
stays in the candidate set of `latest_value` and `growth_rate`; NaT sorts
after every real date, so when such a row exists the row `latest_value`
selects as chronologically last is itself dateless and the returned year
is missing. -/
theorem nat_date_last_spec (df : List Row) (kw : String)
    (h : ∃ r ∈ matchedRows df kw, r.observation_date = none) :
    (∀ r, r ∈ obsRows df → indicatorMatches r kw = true →
      r.value_numeric.isSome = true → r ∈ matchedRows df kw) ∧
    (∀ d, odateLe (some d) none = true) ∧
    ∃ row ∈ matchedRows df kw, row.observation_date = none ∧
      latest_value df kw = some (val row, none) := by
  refine ⟨?_, fun _ => rfl, ?_⟩
  · intro r hobs hmatch hval
    simp only [matchedRows, List.mem_filter, Bool.and_eq_true]
    exact ⟨hobs, hmatch, hval⟩
  · rcases h with ⟨r0, hr0, hr0d⟩
    have hne : matchedRows df kw ≠ [] := by
      intro hnil
      rw [hnil] at hr0
      cases hr0
    rcases latest_value_max df kw hne with ⟨row, hrow, hlv, hmax⟩
    have hrd : row.observation_date = none := by
      have := hmax r0 hr0
      rw [rowDateLe, hr0d] at this
      cases hd : row.observation_date with
      | none => rfl
      | some d =>
        rw [hd] at this
        cases this
    refine ⟨row, hrow, hrd, ?_⟩
    rw [hlv]
    simp [yearOf, hrd]

/-- An account observation whose date failed to parse (NaT) but whose
value is present. -/
def acctNaT : Row :=
  { indicator := some "Account Ownership (survey)",
    observation_date := none,
    value_numeric := some 50, record_type := "observation" }

/-- Dataset holding dated account rows plus a NaT-dated one. -/
def natDf : List Row :=
  [acct2018, acctNaT, acct2021]

/-- Witness for C10: in `natDf` the NaT row wins and the returned year is
missing. -/
theorem nat_date_last_witness :
    (∃ r ∈ matchedRows natDf "account", r.observation_date = none) ∧
    ∃ row ∈ matchedRows natDf "account", row.observation_date = none ∧
      latest_value natDf "account" = some (val row, none) :=
  ⟨by decide, (nat_date_last_spec natDf "account" (by decide)).2.2⟩

end EthiopiaDashboard
